import Mathlib

/-!
Shallow embedding of the fixed-size object pool from `pool.go`
(package `pool`, `wushilin/pool`).

The Go pool stores idle elements in a buffered channel of fixed
capacity; here the channel is a FIFO `List` together with the channel
capacity, and a non-blocking send succeeds exactly when the list is
shorter than the capacity.  The impure `maker` callback
(`func() (T, error)`) is modelled as a stream of results indexed by the
invocation count `makerCalls`: the i-th call to the Go maker returns
`maker i`.  Timestamps (`time.Time`) are integers, and durations
(`time.Duration`) are integers in nanoseconds, with
`time.Second = 1000000000`.

Counters (`created`, `borrowed`, `destroyed`, `tested`, `returned`)
are `int64` values in Go that only ever grow by 1 from 0; they are
modelled as `Nat`.

Besides the source's fields, the state carries pure instrumentation
counters that record externally observable events without influencing
any behaviour: `makerCalls` (invocations of the maker callback),
`sleeps` (calls to `time.Sleep(time.Second)`), `testRequests`
(entries into `wrapTester`), and `disposeRequests` (entries into
`wrapDestroyer`, i.e. disposal events whether or not a destroyer
callback is configured).
-/

set_option autoImplicit false

namespace PoolGo

/-- Go struct `element[T]`: a pooled value with its `lastValidated`
timestamp (`pool.go` lines 10-13). -/
structure Elem (T : Type) where
  data : T
  lastValidated : Int
  deriving Repr, DecidableEq

/-- Go struct `Pool[T]` (`pool.go` lines 15-26), with the channel
`queue chan element[T]` modelled as a FIFO list plus its capacity, the
maker as a result stream, and the instrumentation counters described in
the file header. -/
structure Pool (T E : Type) where
  capacity : Nat
  queue : List (Elem T)
  created : Nat
  borrowed : Nat
  destroyed : Nat
  tested : Nat
  returned : Nat
  idleTimeout : Int
  maker : Nat → Except E T
  tester : Option (T → Bool)
  destroyer : Option (T → Unit)
  makerCalls : Nat
  sleeps : Nat
  testRequests : Nat
  disposeRequests : Nat

/-- `time.Second` in nanoseconds. -/
def second : Int := 1000000000

variable {T E : Type}

/-- Go `(*Pool[T]).WithTester` (`pool.go` lines 30-33). -/
def WithTester (t : T → Bool) (p : Pool T E) : Pool T E :=
  { p with tester := some t }

/-- Go `(*Pool[T]).WithDestroyer` (`pool.go` lines 37-40). -/
def WithDestroyer (d : T → Unit) (p : Pool T E) : Pool T E :=
  { p with destroyer := some d }

/-- Go `(*Pool[T]).WithIdleTimeout` (`pool.go` lines 45-48):
`idleTimeout = time.Second * time.Duration(seconds)`. -/
def WithIdleTimeout (seconds : Int) (p : Pool T E) : Pool T E :=
  { p with idleTimeout := second * seconds }

/-- Go `(*Pool[T]).wrapMaker` (`pool.go` lines 73-80): invoke the maker;
on error return it unchanged, on success increment `created`.
`makerCalls` instruments the invocation itself. -/
def wrapMaker (p : Pool T E) : Except E T × Pool T E :=
  let made := p.maker p.makerCalls
  let p1 := { p with makerCalls := p.makerCalls + 1 }
  match made with
  | Except.error e => (Except.error e, p1)
  | Except.ok v => (Except.ok v, { p1 with created := p1.created + 1 })

/-- Go `(*Pool[T]).wrapDestroyer` (`pool.go` lines 82-88): if no
destroyer is configured, return at once; otherwise call it and
increment `destroyed`.  The destroyer's side effect is external to the
model; `disposeRequests` instruments every entry into this function. -/
def wrapDestroyer (what : T) (p : Pool T E) : Pool T E :=
  let p1 := { p with disposeRequests := p.disposeRequests + 1 }
  match p1.destroyer with
  | none => p1
  | some d =>
    let _ := d what
    { p1 with destroyed := p1.destroyed + 1 }

/-- Go `(*Pool[T]).wrapTester` (`pool.go` lines 90-96): with no tester
return `true`; otherwise increment `tested` and return the tester's
verdict.  `testRequests` instruments every entry into this function. -/
def wrapTester (what : T) (p : Pool T E) : Bool × Pool T E :=
  let p1 := { p with testRequests := p.testRequests + 1 }
  match p1.tester with
  | none => (true, p1)
  | some t => (t what, { p1 with tested := p1.tested + 1 })

/-- The creation loop on Borrow's no-tester stale path
(`pool.go` lines 155-163): `fuel` failed attempts each followed by
`time.Sleep(time.Second)` (instrumented by `sleeps`), then one final
attempt whose result is returned as-is; a successful attempt returns
immediately.  The source runs it with `fuel = 2`: the `for j < 2` loop
then `return v.wrapMaker()`. -/
def makeAttempts : Nat → Pool T E → Except E T × Pool T E
  | 0, p => wrapMaker p
  | Nat.succ n, p =>
    let r := wrapMaker p
    match r.1 with
    | Except.error _ => makeAttempts n { r.2 with sleeps := r.2.sleeps + 1 }
    | Except.ok v => (Except.ok v, r.2)

/-- Go `(*Pool[T]).borrowInternal` (`pool.go` lines 136-172).  An empty
queue (the `select` default) goes straight to `wrapMaker`.  Otherwise
the head element is dequeued; if `elapsed >= idleTimeout` it is either
re-tested (tester configured: pass returns it, fail disposes it and
makes one replacement attempt) or disposed and replaced through the
retry loop `makeAttempts 2`; a fresh element is returned as-is. -/
def borrowInternal (now : Int) (p : Pool T E) : Except E T × Pool T E :=
  match p.queue with
  | [] => wrapMaker p
  | c :: rest =>
    let p1 := { p with queue := rest }
    let data := c.data
    let elapsed := now - c.lastValidated
    if p1.idleTimeout ≤ elapsed then
      match p1.tester with
      | some _ =>
        let tr := wrapTester data p1
        if tr.1 then
          (Except.ok data, tr.2)
        else
          wrapMaker (wrapDestroyer data tr.2)
      | none =>
        makeAttempts 2 (wrapDestroyer data p1)
    else
      (Except.ok data, p1)

/-- Go `(*Pool[T]).Borrow` (`pool.go` lines 128-134): call
`borrowInternal` and increment `borrowed` exactly when the result error
is nil. -/
def Borrow (now : Int) (p : Pool T E) : Except E T × Pool T E :=
  let r := borrowInternal now p
  match r.1 with
  | Except.ok v => (Except.ok v, { r.2 with borrowed := r.2.borrowed + 1 })
  | Except.error e => (Except.error e, r.2)

/-- Go `(*Pool[T]).Return` (`pool.go` lines 179-189): stamp the value
with the current time, increment `returned` unconditionally, then do a
non-blocking send: on a full queue dispose the value and report
`false`. -/
def Return (now : Int) (c : T) (p : Pool T E) : Bool × Pool T E :=
  let elem : Elem T := ⟨c, now⟩
  let p1 := { p with returned := p.returned + 1 }
  if p1.queue.length < p1.capacity then
    (true, { p1 with queue := p1.queue ++ [elem] })
  else
    (false, wrapDestroyer c p1)

/-- The body of Go `PreFill`'s per-slot goroutine iterated `fuel` times
(`pool.go` lines 103-120), sequentialised: each iteration invokes
`wrapMaker`; a failed make is skipped, a successful one is enqueued if
the queue has room (counting it in `madeCount`, here `acc`) and
disposed through `wrapDestroyer` otherwise. -/
def preFillLoop (now : Int) : Nat → Nat → Pool T E → Nat × Pool T E
  | 0, acc, p => (acc, p)
  | Nat.succ n, acc, p =>
    let r := wrapMaker p
    match r.1 with
    | Except.error _ => preFillLoop now n acc r.2
    | Except.ok v =>
      if r.2.queue.length < r.2.capacity then
        preFillLoop now n (acc + 1)
          { r.2 with queue := r.2.queue ++ [⟨v, now⟩] }
      else
        preFillLoop now n acc (wrapDestroyer v r.2)

/-- Go `(*Pool[T]).PreFill` (`pool.go` lines 99-123): run one creation
attempt per capacity slot (`for i < cap(v.queue)`) and return the
number of elements successfully queued. -/
def PreFill (now : Int) (p : Pool T E) : Nat × Pool T E :=
  preFillLoop now p.capacity 0 p

/-- The pool literal built by Go `NewFixedPool` before its `PreFill`
call (`pool.go` lines 57-68): empty queue of the given capacity,
30-second idle timeout (`time.ParseDuration("30s")`), nil tester and
destroyer, all counters zero. -/
def initPool (size : Nat) (mk : Nat → Except E T) : Pool T E :=
  { capacity := size
    queue := []
    created := 0
    borrowed := 0
    destroyed := 0
    tested := 0
    returned := 0
    idleTimeout := 30 * second
    maker := mk
    tester := none
    destroyer := none
    makerCalls := 0
    sleeps := 0
    testRequests := 0
    disposeRequests := 0 }

/-- Go `NewFixedPool` (`pool.go` lines 52-71): `panic` on a nil maker is
modelled as `none`; otherwise build `initPool` and run `PreFill` before
returning. -/
def NewFixedPool (size : Nat) (maker : Option (Nat → Except E T))
    (now : Int) : Option (Pool T E) :=
  match maker with
  | none => none
  | some mk => some (PreFill now (initPool size mk)).2

/-- A single externally invokable pool operation, for stating
whole-lifetime invariants over operation sequences. -/
inductive Op (T : Type) where
  | borrow (now : Int)
  | giveBack (now : Int) (val : T)
  | prefill (now : Int)

/-- Apply one operation to the pool state, discarding the value handed
to or received from the caller. -/
def applyOp (o : Op T) (p : Pool T E) : Pool T E :=
  match o with
  | Op.borrow now => (Borrow now p).2
  | Op.giveBack now val => (Return now val p).2
  | Op.prefill now => (PreFill now p).2

/-- Run a sequence of operations from a starting state. -/
def runOps (ops : List (Op T)) (p : Pool T E) : Pool T E :=
  ops.foldl (fun q o => applyOp o q) p

/-- The configuration of the pool (capacity, idle timeout, and the three
callbacks) as left untouched by the operational code: `q` has the same
configuration as `p`. -/
def Frame (p q : Pool T E) : Prop :=
  q.capacity = p.capacity ∧ q.idleTimeout = p.idleTimeout ∧
  q.maker = p.maker ∧ q.tester = p.tester ∧ q.destroyer = p.destroyer

/-- Pointwise order on the five observable counters. -/
def countersLE (p q : Pool T E) : Prop :=
  p.created ≤ q.created ∧ p.destroyed ≤ q.destroyed ∧ p.tested ≤ q.tested ∧
  p.borrowed ≤ q.borrowed ∧ p.returned ≤ q.returned

/-- A concrete pool state over `T = Nat`, `E = Nat` used to exercise
the theorems on explicit inputs: the given capacity, queue, maker
stream, tester and destroyer, an idle timeout of 5 time units, and all
counters zero. -/
def samplePool (cap : Nat) (qs : List (Elem Nat))
    (mk : Nat → Except Nat Nat) (t : Option (Nat → Bool))
    (d : Option (Nat → Unit)) : Pool Nat Nat :=
  { capacity := cap
    queue := qs
    created := 0
    borrowed := 0
    destroyed := 0
    tested := 0
    returned := 0
    idleTimeout := 5
    maker := mk
    tester := t
    destroyer := d
    makerCalls := 0
    sleeps := 0
    testRequests := 0
    disposeRequests := 0 }

/-- A stale element (timestamp 0) holding the value 7. -/
def staleElem : Elem Nat := ⟨7, 0⟩

/-- Pool with a stale element, an always-failing maker (`error i` on the
i-th invocation) and a tester that always rejects. -/
def poolTesterFail : Pool Nat Nat :=
  samplePool 1 [staleElem] (fun i => Except.error i)
    (some (fun _ => false)) none

/-- Pool with a stale element, an always-failing maker and no tester. -/
def poolNoTester : Pool Nat Nat :=
  samplePool 1 [staleElem] (fun i => Except.error i) none none

/-- Pool with a stale element, no tester, and a maker that fails on its
first invocation and succeeds (with 42) on the second. -/
def poolSecondTry : Pool Nat Nat :=
  samplePool 1 [staleElem]
    (fun i => if i = 1 then Except.ok 42 else Except.error i) none none

/-- Pool with a fresh element (timestamp 98, borrowed at time 100 with
idle timeout 5), a rejecting tester and a destroyer. -/
def poolFresh : Pool Nat Nat :=
  samplePool 1 [⟨7, 98⟩] (fun i => Except.error i)
    (some (fun _ => false)) (some (fun _ => ()))

/-- Pool whose queue is full (capacity 1, one element) with a destroyer
configured. -/
def poolFull : Pool Nat Nat :=
  samplePool 1 [staleElem] (fun i => Except.ok i) none (some (fun _ => ()))

/-- Pool with a stale element, no tester and no destroyer: its
disposals must leave `destroyed` untouched. -/
def poolNoDisposer : Pool Nat Nat :=
  samplePool 1 [staleElem] (fun i => Except.ok i) none none

/-- A short operation sequence exercising Return, Borrow and PreFill. -/
def sampleOps : List (Op Nat) :=
  [Op.giveBack 1 5, Op.giveBack 1 6, Op.borrow 2, Op.prefill 3]

theorem frame_rfl (p : Pool T E) : Frame p p :=
  ⟨rfl, rfl, rfl, rfl, rfl⟩

theorem frame_step {p q r : Pool T E} (h1 : Frame p q) (h2 : Frame q r) :
    Frame p r := by
  obtain ⟨a1, b1, c1, d1, e1⟩ := h1
  obtain ⟨a2, b2, c2, d2, e2⟩ := h2
  exact ⟨a2.trans a1, b2.trans b1, c2.trans c1, d2.trans d1, e2.trans e1⟩

theorem countersLE_rfl (p : Pool T E) : countersLE p p :=
  ⟨le_refl _, le_refl _, le_refl _, le_refl _, le_refl _⟩

theorem countersLE_step {p q r : Pool T E} (h1 : countersLE p q)
    (h2 : countersLE q r) : countersLE p r := by
  obtain ⟨a1, b1, c1, d1, e1⟩ := h1
  obtain ⟨a2, b2, c2, d2, e2⟩ := h2
  exact ⟨a1.trans a2, b1.trans b2, c1.trans c2, d1.trans d2, e1.trans e2⟩

theorem wrapMaker_ok {p : Pool T E} {v : T}
    (h : p.maker p.makerCalls = Except.ok v) :
    wrapMaker p = (Except.ok v,
      { p with makerCalls := p.makerCalls + 1, created := p.created + 1 }) := by
  simp [wrapMaker, h]

theorem wrapMaker_err {p : Pool T E} {e : E}
    (h : p.maker p.makerCalls = Except.error e) :
    wrapMaker p = (Except.error e,
      { p with makerCalls := p.makerCalls + 1 }) := by
  simp [wrapMaker, h]

theorem wrapMaker_fst (p : Pool T E) :
    (wrapMaker p).1 = p.maker p.makerCalls := by
  cases h : p.maker p.makerCalls with
  | error e => simp [wrapMaker_err h]
  | ok v => simp [wrapMaker_ok h]

theorem wrapMaker_created (p : Pool T E) :
    (wrapMaker p).2.created =
      p.created + (if (p.maker p.makerCalls).isOk then 1 else 0) := by
  cases h : p.maker p.makerCalls with
  | error e => simp [wrapMaker_err h, Except.isOk, Except.toBool]
  | ok v => simp [wrapMaker_ok h, Except.isOk, Except.toBool]

theorem wrapMaker_makerCalls (p : Pool T E) :
    (wrapMaker p).2.makerCalls = p.makerCalls + 1 := by
  cases h : p.maker p.makerCalls with
  | error e => simp [wrapMaker_err h]
  | ok v => simp [wrapMaker_ok h]

theorem wrapMaker_preserves (p : Pool T E) :
    (wrapMaker p).2.queue = p.queue ∧ (wrapMaker p).2.borrowed = p.borrowed ∧
    (wrapMaker p).2.destroyed = p.destroyed ∧
    (wrapMaker p).2.tested = p.tested ∧
    (wrapMaker p).2.returned = p.returned ∧
    (wrapMaker p).2.sleeps = p.sleeps ∧
    (wrapMaker p).2.testRequests = p.testRequests ∧
    (wrapMaker p).2.disposeRequests = p.disposeRequests := by
  cases h : p.maker p.makerCalls with
  | error e => simp [wrapMaker_err h]
  | ok v => simp [wrapMaker_ok h]

theorem wrapMaker_frame (p : Pool T E) : Frame p (wrapMaker p).2 := by
  cases h : p.maker p.makerCalls with
  | error e => simp [Frame, wrapMaker_err h]
  | ok v => simp [Frame, wrapMaker_ok h]

theorem wrapMaker_counters (p : Pool T E) : countersLE p (wrapMaker p).2 := by
  obtain ⟨-, h2, h3, h4, h5, -⟩ := wrapMaker_preserves p
  refine ⟨?_, le_of_eq h3.symm, le_of_eq h4.symm, le_of_eq h2.symm,
    le_of_eq h5.symm⟩
  rw [wrapMaker_created]
  exact Nat.le_add_right _ _

theorem wrapDestroyer_none {p : Pool T E} (x : T) (h : p.destroyer = none) :
    wrapDestroyer x p =
      { p with disposeRequests := p.disposeRequests + 1 } := by
  simp [wrapDestroyer, h]

theorem wrapDestroyer_some {p : Pool T E} (x : T) {d : T → Unit}
    (h : p.destroyer = some d) :
    wrapDestroyer x p =
      { p with disposeRequests := p.disposeRequests + 1,
               destroyed := p.destroyed + 1 } := by
  simp [wrapDestroyer, h]

theorem wrapDestroyer_destroyed (x : T) (p : Pool T E) :
    (wrapDestroyer x p).destroyed =
      p.destroyed + (if p.destroyer.isSome then 1 else 0) := by
  cases h : p.destroyer with
  | none => simp [wrapDestroyer_none x h]
  | some d => simp [wrapDestroyer_some x h]

theorem wrapDestroyer_preserves (x : T) (p : Pool T E) :
    (wrapDestroyer x p).queue = p.queue ∧
    (wrapDestroyer x p).created = p.created ∧
    (wrapDestroyer x p).borrowed = p.borrowed ∧
    (wrapDestroyer x p).tested = p.tested ∧
    (wrapDestroyer x p).returned = p.returned ∧
    (wrapDestroyer x p).makerCalls = p.makerCalls ∧
    (wrapDestroyer x p).sleeps = p.sleeps ∧
    (wrapDestroyer x p).testRequests = p.testRequests ∧
    (wrapDestroyer x p).disposeRequests = p.disposeRequests + 1 := by
  cases h : p.destroyer with
  | none => simp [wrapDestroyer_none x h]
  | some d => simp [wrapDestroyer_some x h]

theorem wrapDestroyer_frame (x : T) (p : Pool T E) :
    Frame p (wrapDestroyer x p) := by
  cases h : p.destroyer with
  | none => simp [Frame, wrapDestroyer_none x h, h]
  | some d => simp [Frame, wrapDestroyer_some x h, h]

theorem wrapDestroyer_counters (x : T) (p : Pool T E) :
    countersLE p (wrapDestroyer x p) := by
  obtain ⟨-, h2, h3, h4, h5, -⟩ := wrapDestroyer_preserves x p
  refine ⟨le_of_eq h2.symm, ?_, le_of_eq h4.symm, le_of_eq h3.symm,
    le_of_eq h5.symm⟩
  rw [wrapDestroyer_destroyed]
  exact Nat.le_add_right _ _

theorem wrapTester_none {p : Pool T E} (x : T) (h : p.tester = none) :
    wrapTester x p =
      (true, { p with testRequests := p.testRequests + 1 }) := by
  simp [wrapTester, h]

theorem wrapTester_some {p : Pool T E} (x : T) {t : T → Bool}
    (h : p.tester = some t) :
    wrapTester x p =
      (t x, { p with testRequests := p.testRequests + 1,
                     tested := p.tested + 1 }) := by
  simp [wrapTester, h]

theorem wrapTester_preserves (x : T) (p : Pool T E) :
    (wrapTester x p).2.queue = p.queue ∧
    (wrapTester x p).2.created = p.created ∧
    (wrapTester x p).2.borrowed = p.borrowed ∧
    (wrapTester x p).2.destroyed = p.destroyed ∧
    (wrapTester x p).2.returned = p.returned ∧
    (wrapTester x p).2.makerCalls = p.makerCalls ∧
    (wrapTester x p).2.sleeps = p.sleeps ∧
    (wrapTester x p).2.disposeRequests = p.disposeRequests := by
  cases h : p.tester with
  | none => simp [wrapTester_none x h]
  | some t => simp [wrapTester_some x h]

theorem wrapTester_frame (x : T) (p : Pool T E) :
    Frame p (wrapTester x p).2 := by
  cases h : p.tester with
  | none => simp [Frame, wrapTester_none x h, h]
  | some t => simp [Frame, wrapTester_some x h, h]

theorem wrapTester_counters (x : T) (p : Pool T E) :
    countersLE p (wrapTester x p).2 := by
  obtain ⟨-, h2, h3, h4, h5, -⟩ := wrapTester_preserves x p
  refine ⟨le_of_eq h2.symm, le_of_eq h4.symm, ?_, le_of_eq h3.symm,
    le_of_eq h5.symm⟩
  cases h : p.tester with
  | none => simp [wrapTester_none x h]
  | some t => simp [wrapTester_some x h]

theorem makeAttempts_zero (p : Pool T E) : makeAttempts 0 p = wrapMaker p :=
  rfl

theorem makeAttempts_step_err {p : Pool T E} {e0 : E} (n : Nat)
    (h : p.maker p.makerCalls = Except.error e0) :
    makeAttempts (n + 1) p =
      makeAttempts n
        { p with makerCalls := p.makerCalls + 1, sleeps := p.sleeps + 1 } := by
  simp [makeAttempts, wrapMaker_err h]

theorem makeAttempts_step_ok {p : Pool T E} {v : T} (n : Nat)
    (h : p.maker p.makerCalls = Except.ok v) :
    makeAttempts (n + 1) p =
      (Except.ok v,
        { p with makerCalls := p.makerCalls + 1,
                 created := p.created + 1 }) := by
  simp [makeAttempts, wrapMaker_ok h]

theorem makeAttempts_preserves (fuel : Nat) (p : Pool T E) :
    (makeAttempts fuel p).2.queue = p.queue ∧
    (makeAttempts fuel p).2.borrowed = p.borrowed ∧
    (makeAttempts fuel p).2.destroyed = p.destroyed ∧
    (makeAttempts fuel p).2.tested = p.tested ∧
    (makeAttempts fuel p).2.returned = p.returned ∧
    (makeAttempts fuel p).2.testRequests = p.testRequests ∧
    (makeAttempts fuel p).2.disposeRequests = p.disposeRequests := by
  induction fuel generalizing p with
  | zero =>
    obtain ⟨h1, h2, h3, h4, h5, -, h7, h8⟩ := wrapMaker_preserves p
    exact ⟨h1, h2, h3, h4, h5, h7, h8⟩
  | succ n ih =>
    cases h : p.maker p.makerCalls with
    | ok v => simp [makeAttempts_step_ok n h]
    | error e =>
      rw [makeAttempts_step_err n h]
      obtain ⟨h1, h2, h3, h4, h5, h7, h8⟩ := ih
        { p with makerCalls := p.makerCalls + 1, sleeps := p.sleeps + 1 }
      exact ⟨h1, h2, h3, h4, h5, h7, h8⟩

theorem makeAttempts_frame (fuel : Nat) (p : Pool T E) :
    Frame p (makeAttempts fuel p).2 := by
  induction fuel generalizing p with
  | zero => exact wrapMaker_frame p
  | succ n ih =>
    cases h : p.maker p.makerCalls with
    | ok v => simp [Frame, makeAttempts_step_ok n h]
    | error e =>
      rw [makeAttempts_step_err n h]
      exact ih _

theorem makeAttempts_counters (fuel : Nat) (p : Pool T E) :
    countersLE p (makeAttempts fuel p).2 := by
  induction fuel generalizing p with
  | zero => exact wrapMaker_counters p
  | succ n ih =>
    cases h : p.maker p.makerCalls with
    | ok v =>
      rw [makeAttempts_step_ok n h]
      exact ⟨Nat.le_add_right _ _, le_refl _, le_refl _, le_refl _, le_refl _⟩
    | error e =>
      rw [makeAttempts_step_err n h]
      refine countersLE_step ?_
        (ih { p with makerCalls := p.makerCalls + 1, sleeps := p.sleeps + 1 })
      exact ⟨le_refl _, le_refl _, le_refl _, le_refl _, le_refl _⟩

theorem borrowInternal_empty (now : Int) {p : Pool T E} (h : p.queue = []) :
    borrowInternal now p = wrapMaker p := by
  simp [borrowInternal, h]

theorem borrowInternal_fresh (now : Int) {p : Pool T E} {e : Elem T}
    {rest : List (Elem T)} (hq : p.queue = e :: rest)
    (hfresh : now - e.lastValidated < p.idleTimeout) :
    borrowInternal now p = (Except.ok e.data, { p with queue := rest }) := by
  simp only [borrowInternal, hq]
  rw [if_neg (not_le.mpr hfresh)]

theorem borrowInternal_stale_noTester (now : Int) {p : Pool T E}
    {e : Elem T} {rest : List (Elem T)} (hq : p.queue = e :: rest)
    (ht : p.tester = none)
    (hstale : p.idleTimeout ≤ now - e.lastValidated) :
    borrowInternal now p =
      makeAttempts 2 (wrapDestroyer e.data { p with queue := rest }) := by
  simp only [borrowInternal, hq]
  rw [if_pos hstale]
  simp [ht]

theorem borrowInternal_stale_tester_pass (now : Int) {p : Pool T E}
    {e : Elem T} {rest : List (Elem T)} {t : T → Bool}
    (hq : p.queue = e :: rest) (ht : p.tester = some t)
    (hstale : p.idleTimeout ≤ now - e.lastValidated)
    (hpass : t e.data = true) :
    borrowInternal now p =
      (Except.ok e.data,
        { p with queue := rest, testRequests := p.testRequests + 1,
                 tested := p.tested + 1 }) := by
  have hw := wrapTester_some e.data (p := { p with queue := rest }) ht
  simp only [borrowInternal, hq]
  rw [if_pos hstale]
  rw [ht] at hw ⊢
  simp only [hw, hpass]
  simp

theorem borrowInternal_stale_tester_fail (now : Int) {p : Pool T E}
    {e : Elem T} {rest : List (Elem T)} {t : T → Bool}
    (hq : p.queue = e :: rest) (ht : p.tester = some t)
    (hstale : p.idleTimeout ≤ now - e.lastValidated)
    (hfail : t e.data = false) :
    borrowInternal now p =
      wrapMaker (wrapDestroyer e.data
        { p with queue := rest, testRequests := p.testRequests + 1,
                 tested := p.tested + 1 }) := by
  have hw := wrapTester_some e.data (p := { p with queue := rest }) ht
  simp only [borrowInternal, hq]
  rw [if_pos hstale]
  rw [ht] at hw ⊢
  simp only [hw, hfail]
  simp

theorem borrowInternal_cases (now : Int) (p : Pool T E) :
    (p.queue = [] ∧ borrowInternal now p = wrapMaker p) ∨
    (∃ e rest, p.queue = e :: rest ∧
      (borrowInternal now p = (Except.ok e.data, { p with queue := rest }) ∨
       borrowInternal now p = (Except.ok e.data,
         { p with queue := rest, testRequests := p.testRequests + 1,
                  tested := p.tested + 1 }) ∨
       borrowInternal now p = wrapMaker (wrapDestroyer e.data
         { p with queue := rest, testRequests := p.testRequests + 1,
                  tested := p.tested + 1 }) ∨
       borrowInternal now p =
         makeAttempts 2 (wrapDestroyer e.data { p with queue := rest }))) := by
  cases hq : p.queue with
  | nil => exact Or.inl ⟨rfl, borrowInternal_empty now hq⟩
  | cons e rest =>
    refine Or.inr ⟨e, rest, rfl, ?_⟩
    by_cases hstale : p.idleTimeout ≤ now - e.lastValidated
    · cases ht : p.tester with
      | none =>
        have hx := borrowInternal_stale_noTester now hq ht hstale
        rw [ht] at hx
        exact Or.inr (Or.inr (Or.inr hx))
      | some t =>
        cases htv : t e.data with
        | true =>
          have hx := borrowInternal_stale_tester_pass now hq ht hstale htv
          rw [ht] at hx
          exact Or.inr (Or.inl hx)
        | false =>
          have hx := borrowInternal_stale_tester_fail now hq ht hstale htv
          rw [ht] at hx
          exact Or.inr (Or.inr (Or.inl hx))
    · exact Or.inl (borrowInternal_fresh now hq (not_le.mp hstale))

theorem borrowInternal_frame (now : Int) (p : Pool T E) :
    Frame p (borrowInternal now p).2 := by
  rcases borrowInternal_cases now p with ⟨-, h⟩ | ⟨e, rest, -, h | h | h | h⟩ <;>
    rw [h]
  · exact wrapMaker_frame p
  · exact frame_rfl _
  · exact frame_rfl _
  · refine frame_step (frame_step ?_ (wrapDestroyer_frame _ _))
      (wrapMaker_frame _)
    exact frame_rfl _
  · refine frame_step (frame_step ?_ (wrapDestroyer_frame _ _))
      (makeAttempts_frame 2 _)
    exact frame_rfl _

theorem borrowInternal_counters (now : Int) (p : Pool T E) :
    countersLE p (borrowInternal now p).2 := by
  rcases borrowInternal_cases now p with ⟨-, h⟩ | ⟨e, rest, -, h | h | h | h⟩ <;>
    rw [h]
  · exact wrapMaker_counters p
  · exact countersLE_rfl _
  · exact ⟨le_refl _, le_refl _, Nat.le_add_right _ _, le_refl _, le_refl _⟩
  · refine countersLE_step ?_ (countersLE_step
      (wrapDestroyer_counters _ _) (wrapMaker_counters _))
    exact ⟨le_refl _, le_refl _, Nat.le_add_right _ _, le_refl _, le_refl _⟩
  · refine countersLE_step ?_ (countersLE_step
      (wrapDestroyer_counters _ _) (makeAttempts_counters 2 _))
    exact countersLE_rfl _

theorem borrowInternal_borrowed (now : Int) (p : Pool T E) :
    (borrowInternal now p).2.borrowed = p.borrowed := by
  rcases borrowInternal_cases now p with ⟨-, h⟩ | ⟨e, rest, -, h | h | h | h⟩ <;>
    rw [h]
  · exact (wrapMaker_preserves p).2.1
  · rw [(wrapMaker_preserves _).2.1, (wrapDestroyer_preserves _ _).2.2.1]
  · rw [(makeAttempts_preserves 2 _).2.1, (wrapDestroyer_preserves _ _).2.2.1]

theorem borrowInternal_queueLen (now : Int) (p : Pool T E) :
    (borrowInternal now p).2.queue.length ≤ p.queue.length := by
  rcases borrowInternal_cases now p with ⟨hq, h⟩ |
    ⟨e, rest, hq, h | h | h | h⟩ <;> rw [h]
  · rw [(wrapMaker_preserves p).1]
  · simp [hq]
  · simp [hq]
  · rw [(wrapMaker_preserves _).1, (wrapDestroyer_preserves _ _).1]
    simp [hq]
  · rw [(makeAttempts_preserves 2 _).1, (wrapDestroyer_preserves _ _).1]
    simp [hq]

theorem Borrow_of_ok {now : Int} {p : Pool T E} {v : T}
    (h : (borrowInternal now p).1 = Except.ok v) :
    Borrow now p = (Except.ok v,
      { (borrowInternal now p).2 with
          borrowed := (borrowInternal now p).2.borrowed + 1 }) := by
  simp [Borrow, h]

theorem Borrow_of_err {now : Int} {p : Pool T E} {e : E}
    (h : (borrowInternal now p).1 = Except.error e) :
    Borrow now p = (Except.error e, (borrowInternal now p).2) := by
  simp [Borrow, h]

theorem Borrow_frame (now : Int) (p : Pool T E) :
    Frame p (Borrow now p).2 := by
  cases h : (borrowInternal now p).1 with
  | ok v =>
    rw [Borrow_of_ok h]
    have hf := borrowInternal_frame now p
    exact ⟨hf.1, hf.2.1, hf.2.2.1, hf.2.2.2.1, hf.2.2.2.2⟩
  | error e =>
    rw [Borrow_of_err h]
    exact borrowInternal_frame now p

theorem Borrow_counters (now : Int) (p : Pool T E) :
    countersLE p (Borrow now p).2 := by
  cases h : (borrowInternal now p).1 with
  | ok v =>
    rw [Borrow_of_ok h]
    have hc := borrowInternal_counters now p
    exact ⟨hc.1, hc.2.1, hc.2.2.1, hc.2.2.2.1.trans (Nat.le_add_right _ _),
      hc.2.2.2.2⟩
  | error e =>
    rw [Borrow_of_err h]
    exact borrowInternal_counters now p

theorem Borrow_borrowed (now : Int) (p : Pool T E) :
    (Borrow now p).2.borrowed =
      p.borrowed + (if (Borrow now p).1.isOk then 1 else 0) := by
  cases h : (borrowInternal now p).1 with
  | ok v =>
    rw [Borrow_of_ok h]
    simp [Except.isOk, Except.toBool, borrowInternal_borrowed now p]
  | error e =>
    rw [Borrow_of_err h]
    simp [Except.isOk, Except.toBool, borrowInternal_borrowed now p]

theorem Borrow_queueLen (now : Int) (p : Pool T E) :
    (Borrow now p).2.queue.length ≤ p.queue.length := by
  cases h : (borrowInternal now p).1 with
  | ok v =>
    rw [Borrow_of_ok h]
    exact borrowInternal_queueLen now p
  | error e =>
    rw [Borrow_of_err h]
    exact borrowInternal_queueLen now p

theorem Return_enqueue {now : Int} {c : T} {p : Pool T E}
    (h : p.queue.length < p.capacity) :
    Return now c p = (true,
      { p with returned := p.returned + 1,
               queue := p.queue ++ [⟨c, now⟩] }) := by
  simp only [Return]
  rw [if_pos h]

theorem Return_full {now : Int} {c : T} {p : Pool T E}
    (h : ¬ p.queue.length < p.capacity) :
    Return now c p =
      (false, wrapDestroyer c { p with returned := p.returned + 1 }) := by
  simp only [Return]
  rw [if_neg h]

theorem Return_frame (now : Int) (c : T) (p : Pool T E) :
    Frame p (Return now c p).2 := by
  by_cases h : p.queue.length < p.capacity
  · rw [Return_enqueue h]
    exact frame_rfl _
  · rw [Return_full h]
    exact frame_step (frame_rfl _) (wrapDestroyer_frame c _)

theorem Return_counters (now : Int) (c : T) (p : Pool T E) :
    countersLE p (Return now c p).2 := by
  by_cases h : p.queue.length < p.capacity
  · rw [Return_enqueue h]
    exact ⟨le_refl _, le_refl _, le_refl _, le_refl _, Nat.le_add_right _ _⟩
  · rw [Return_full h]
    refine countersLE_step ?_ (wrapDestroyer_counters c _)
    exact ⟨le_refl _, le_refl _, le_refl _, le_refl _, Nat.le_add_right _ _⟩

theorem Return_bound (now : Int) (c : T) (p : Pool T E)
    (h : p.queue.length ≤ p.capacity) :
    (Return now c p).2.queue.length ≤ (Return now c p).2.capacity := by
  by_cases hr : p.queue.length < p.capacity
  · rw [Return_enqueue hr]
    simpa using hr
  · rw [Return_full hr]
    rw [(wrapDestroyer_preserves c _).1]
    have hc := (wrapDestroyer_frame c
      { p with returned := p.returned + 1 }).1
    rw [hc]
    exact h

theorem preFillLoop_step_err {now : Int} {p : Pool T E} {e0 : E}
    (n acc : Nat) (h : p.maker p.makerCalls = Except.error e0) :
    preFillLoop now (n + 1) acc p =
      preFillLoop now n acc { p with makerCalls := p.makerCalls + 1 } := by
  simp [preFillLoop, wrapMaker_err h]

theorem preFillLoop_step_ok_room {now : Int} {p : Pool T E} {v : T}
    (n acc : Nat) (h : p.maker p.makerCalls = Except.ok v)
    (hroom : p.queue.length < p.capacity) :
    preFillLoop now (n + 1) acc p =
      preFillLoop now n (acc + 1)
        { p with makerCalls := p.makerCalls + 1, created := p.created + 1,
                 queue := p.queue ++ [⟨v, now⟩] } := by
  simp only [preFillLoop, wrapMaker_ok h]
  rw [if_pos hroom]

theorem preFillLoop_step_ok_full {now : Int} {p : Pool T E} {v : T}
    (n acc : Nat) (h : p.maker p.makerCalls = Except.ok v)
    (hfull : ¬ p.queue.length < p.capacity) :
    preFillLoop now (n + 1) acc p =
      preFillLoop now n acc (wrapDestroyer v
        { p with makerCalls := p.makerCalls + 1,
                 created := p.created + 1 }) := by
  simp only [preFillLoop, wrapMaker_ok h]
  rw [if_neg hfull]

theorem preFillLoop_frame (now : Int) (fuel acc : Nat) (p : Pool T E) :
    Frame p (preFillLoop now fuel acc p).2 := by
  induction fuel generalizing acc p with
  | zero => exact frame_rfl _
  | succ n ih =>
    cases h : p.maker p.makerCalls with
    | error e0 =>
      rw [preFillLoop_step_err n acc h]
      exact frame_step (frame_rfl _) (ih acc _)
    | ok v =>
      by_cases hroom : p.queue.length < p.capacity
      · rw [preFillLoop_step_ok_room n acc h hroom]
        exact frame_step (frame_rfl _) (ih (acc + 1) _)
      · rw [preFillLoop_step_ok_full n acc h hroom]
        refine frame_step ?_ (ih acc _)
        exact frame_step (frame_rfl _) (wrapDestroyer_frame v _)

theorem preFillLoop_counters (now : Int) (fuel acc : Nat) (p : Pool T E) :
    countersLE p (preFillLoop now fuel acc p).2 := by
  induction fuel generalizing acc p with
  | zero => exact countersLE_rfl _
  | succ n ih =>
    cases h : p.maker p.makerCalls with
    | error e0 =>
      rw [preFillLoop_step_err n acc h]
      refine countersLE_step ?_
        (ih acc { p with makerCalls := p.makerCalls + 1 })
      exact ⟨le_refl _, le_refl _, le_refl _, le_refl _, le_refl _⟩
    | ok v =>
      by_cases hroom : p.queue.length < p.capacity
      · rw [preFillLoop_step_ok_room n acc h hroom]
        refine countersLE_step ?_ (ih (acc + 1) _)
        exact ⟨Nat.le_add_right _ _, le_refl _, le_refl _, le_refl _,
          le_refl _⟩
      · rw [preFillLoop_step_ok_full n acc h hroom]
        refine countersLE_step ?_ (ih acc _)
        refine countersLE_step ?_ (wrapDestroyer_counters v _)
        exact ⟨Nat.le_add_right _ _, le_refl _, le_refl _, le_refl _,
          le_refl _⟩

theorem preFillLoop_bound (now : Int) (fuel acc : Nat) (p : Pool T E)
    (h : p.queue.length ≤ p.capacity) :
    (preFillLoop now fuel acc p).2.queue.length ≤
      (preFillLoop now fuel acc p).2.capacity := by
  induction fuel generalizing acc p with
  | zero => exact h
  | succ n ih =>
    cases hm : p.maker p.makerCalls with
    | error e0 =>
      rw [preFillLoop_step_err n acc hm]
      exact ih acc _ h
    | ok v =>
      by_cases hroom : p.queue.length < p.capacity
      · rw [preFillLoop_step_ok_room n acc hm hroom]
        refine ih (acc + 1) _ ?_
        simpa using hroom
      · rw [preFillLoop_step_ok_full n acc hm hroom]
        refine ih acc _ ?_
        rw [(wrapDestroyer_preserves v _).1,
          (wrapDestroyer_frame v _).1]
        exact h

theorem preFillLoop_fill (now : Int) (fuel acc : Nat) (p : Pool T E)
    (hok : ∀ i, (p.maker i).isOk = true)
    (hfit : p.queue.length + fuel ≤ p.capacity) :
    (preFillLoop now fuel acc p).2.queue.length = p.queue.length + fuel ∧
    (preFillLoop now fuel acc p).2.created = p.created + fuel ∧
    (preFillLoop now fuel acc p).1 = acc + fuel := by
  induction fuel generalizing acc p with
  | zero => exact ⟨rfl, rfl, rfl⟩
  | succ n ih =>
    cases hm : p.maker p.makerCalls with
    | error e0 =>
      have := hok p.makerCalls
      rw [hm] at this
      simp [Except.isOk, Except.toBool] at this
    | ok v =>
      have hroom : p.queue.length < p.capacity := by omega
      rw [preFillLoop_step_ok_room n acc hm hroom]
      obtain ⟨h1, h2, h3⟩ := ih (acc + 1)
        { p with makerCalls := p.makerCalls + 1, created := p.created + 1,
                 queue := p.queue ++ [⟨v, now⟩] }
        (fun i => hok i) (by simpa using by omega)
      refine ⟨?_, ?_, ?_⟩
      · rw [h1]; simp; omega
      · rw [h2]
        show p.created + 1 + n = p.created + (n + 1)
        omega
      · rw [h3]; omega

theorem runOps_nil (p : Pool T E) : runOps [] p = p := rfl

theorem runOps_cons (o : Op T) (ops : List (Op T)) (p : Pool T E) :
    runOps (o :: ops) p = runOps ops (applyOp o p) := rfl

theorem applyOp_frame (o : Op T) (p : Pool T E) : Frame p (applyOp o p) := by
  cases o with
  | borrow now => exact Borrow_frame now p
  | giveBack now val => exact Return_frame now val p
  | prefill now => exact preFillLoop_frame now p.capacity 0 p

theorem applyOp_counters (o : Op T) (p : Pool T E) :
    countersLE p (applyOp o p) := by
  cases o with
  | borrow now => exact Borrow_counters now p
  | giveBack now val => exact Return_counters now val p
  | prefill now => exact preFillLoop_counters now p.capacity 0 p

theorem applyOp_bound (o : Op T) (p : Pool T E)
    (h : p.queue.length ≤ p.capacity) :
    (applyOp o p).queue.length ≤ (applyOp o p).capacity := by
  cases o with
  | borrow now =>
    show (Borrow now p).2.queue.length ≤ (Borrow now p).2.capacity
    rw [(Borrow_frame now p).1]
    exact (Borrow_queueLen now p).trans h
  | giveBack now val => exact Return_bound now val p h
  | prefill now => exact preFillLoop_bound now p.capacity 0 p h

theorem runOps_frame (ops : List (Op T)) (p : Pool T E) :
    Frame p (runOps ops p) := by
  induction ops generalizing p with
  | nil => exact frame_rfl _
  | cons o os ih =>
    rw [runOps_cons]
    exact frame_step (applyOp_frame o p) (ih (applyOp o p))

theorem runOps_counters (ops : List (Op T)) (p : Pool T E) :
    countersLE p (runOps ops p) := by
  induction ops generalizing p with
  | nil => exact countersLE_rfl _
  | cons o os ih =>
    rw [runOps_cons]
    exact countersLE_step (applyOp_counters o p) (ih (applyOp o p))

theorem runOps_bound (ops : List (Op T)) (p : Pool T E)
    (h : p.queue.length ≤ p.capacity) :
    (runOps ops p).queue.length ≤ (runOps ops p).capacity := by
  induction ops generalizing p with
  | nil => exact h
  | cons o os ih =>
    rw [runOps_cons]
    exact ih (applyOp o p) (applyOp_bound o p h)

theorem makeAttempts2_ok0 {p : Pool T E} {v : T}
    (h0 : p.maker p.makerCalls = Except.ok v) :
    (makeAttempts 2 p).1 = Except.ok v ∧
    (makeAttempts 2 p).2.makerCalls = p.makerCalls + 1 ∧
    (makeAttempts 2 p).2.sleeps = p.sleeps ∧
    (makeAttempts 2 p).2.created = p.created + 1 := by
  rw [makeAttempts_step_ok 1 h0]
  exact ⟨rfl, rfl, rfl, rfl⟩

theorem makeAttempts2_ok1 {p : Pool T E} {e0 : E} {v : T}
    (h0 : p.maker p.makerCalls = Except.error e0)
    (h1 : p.maker (p.makerCalls + 1) = Except.ok v) :
    (makeAttempts 2 p).1 = Except.ok v ∧
    (makeAttempts 2 p).2.makerCalls = p.makerCalls + 2 ∧
    (makeAttempts 2 p).2.sleeps = p.sleeps + 1 ∧
    (makeAttempts 2 p).2.created = p.created + 1 := by
  rw [makeAttempts_step_err 1 h0, makeAttempts_step_ok
    (p := { p with makerCalls := p.makerCalls + 1,
                   sleeps := p.sleeps + 1 }) 0 h1]
  exact ⟨rfl, rfl, rfl, rfl⟩

theorem makeAttempts2_ok2 {p : Pool T E} {e0 e1 : E} {v : T}
    (h0 : p.maker p.makerCalls = Except.error e0)
    (h1 : p.maker (p.makerCalls + 1) = Except.error e1)
    (h2 : p.maker (p.makerCalls + 2) = Except.ok v) :
    (makeAttempts 2 p).1 = Except.ok v ∧
    (makeAttempts 2 p).2.makerCalls = p.makerCalls + 3 ∧
    (makeAttempts 2 p).2.sleeps = p.sleeps + 2 ∧
    (makeAttempts 2 p).2.created = p.created + 1 := by
  rw [makeAttempts_step_err 1 h0, makeAttempts_step_err
    (p := { p with makerCalls := p.makerCalls + 1,
                   sleeps := p.sleeps + 1 }) 0 h1,
    makeAttempts_zero, wrapMaker_ok
    (p := { p with makerCalls := p.makerCalls + 2,
                   sleeps := p.sleeps + 2 }) h2]
  exact ⟨rfl, rfl, rfl, rfl⟩

theorem makeAttempts2_allErr {p : Pool T E} {e0 e1 e2 : E}
    (h0 : p.maker p.makerCalls = Except.error e0)
    (h1 : p.maker (p.makerCalls + 1) = Except.error e1)
    (h2 : p.maker (p.makerCalls + 2) = Except.error e2) :
    (makeAttempts 2 p).1 = Except.error e2 ∧
    (makeAttempts 2 p).2.makerCalls = p.makerCalls + 3 ∧
    (makeAttempts 2 p).2.sleeps = p.sleeps + 2 ∧
    (makeAttempts 2 p).2.created = p.created := by
  rw [makeAttempts_step_err 1 h0, makeAttempts_step_err
    (p := { p with makerCalls := p.makerCalls + 1,
                   sleeps := p.sleeps + 1 }) 0 h1,
    makeAttempts_zero, wrapMaker_err
    (p := { p with makerCalls := p.makerCalls + 2,
                   sleeps := p.sleeps + 2 }) h2]
  exact ⟨rfl, rfl, rfl, rfl⟩

theorem wrapDestroyer_maker (x : T) (p : Pool T E) :
    (wrapDestroyer x p).maker = p.maker :=
  (wrapDestroyer_frame x p).2.2.1

theorem wrapDestroyer_makerCalls (x : T) (p : Pool T E) :
    (wrapDestroyer x p).makerCalls = p.makerCalls :=
  (wrapDestroyer_preserves x p).2.2.2.2.2.1

theorem NewFixedPool_nil_maker (size : Nat) (now : Int) :
    NewFixedPool (T := T) (E := E) size none now = none :=
  rfl

theorem NewFixedPool_some_maker (size : Nat) (mk : Nat → Except E T)
    (now : Int) :
    NewFixedPool size (some mk) now =
      some (PreFill now (initPool size mk)).2 :=
  rfl

theorem Borrow_proj (now : Int) (p : Pool T E) :
    (Borrow now p).1 = (borrowInternal now p).1 ∧
    (Borrow now p).2.makerCalls = (borrowInternal now p).2.makerCalls ∧
    (Borrow now p).2.sleeps = (borrowInternal now p).2.sleeps ∧
    (Borrow now p).2.destroyed = (borrowInternal now p).2.destroyed ∧
    (Borrow now p).2.disposeRequests =
      (borrowInternal now p).2.disposeRequests := by
  cases h : (borrowInternal now p).1 with
  | ok v => rw [Borrow_of_ok h]; exact ⟨rfl, rfl, rfl, rfl, rfl⟩
  | error e => rw [Borrow_of_err h]; exact ⟨rfl, rfl, rfl, rfl, rfl⟩

/-- C2 (amended): every Return call increments `returned` by one,
whether or not the enqueue succeeds.  When the queue has room, Return
reports true, appends the value with the current timestamp, and does
not dispose anything; when the queue is full, Return reports false,
leaves the queue unchanged, performs one disposal, and increments
`destroyed` exactly when a disposer is configured. -/
theorem C2_return_semantics (now : Int) (c : T) (p : Pool T E) :
    (Return now c p).2.returned = p.returned + 1 ∧
    (p.queue.length < p.capacity →
      (Return now c p).1 = true ∧
      (Return now c p).2.queue = p.queue ++ [⟨c, now⟩] ∧
      (Return now c p).2.destroyed = p.destroyed ∧
      (Return now c p).2.disposeRequests = p.disposeRequests) ∧
    (¬ p.queue.length < p.capacity →
      (Return now c p).1 = false ∧
      (Return now c p).2.queue = p.queue ∧
      (Return now c p).2.disposeRequests = p.disposeRequests + 1 ∧
      (Return now c p).2.destroyed =
        p.destroyed + (if p.destroyer.isSome then 1 else 0)) := by
  by_cases h : p.queue.length < p.capacity
  · rw [Return_enqueue h]
    exact ⟨rfl, fun _ => ⟨rfl, rfl, rfl, rfl⟩, fun hc => absurd h hc⟩
  · rw [Return_full h]
    refine ⟨?_, fun hc => absurd hc h, fun _ => ⟨rfl, ?_, ?_, ?_⟩⟩
    · exact (wrapDestroyer_preserves c _).2.2.2.2.1
    · exact (wrapDestroyer_preserves c _).1
    · exact (wrapDestroyer_preserves c _).2.2.2.2.2.2.2.2
    · exact wrapDestroyer_destroyed c _

/-- C2 counterexample: on the full pool `poolFull` (capacity 1, one
queued element), Return reports false yet still increments `returned`
from 0 to 1, contradicting the claim that `returned` is incremented
exactly when the enqueue succeeds. -/
theorem C2_counterexample :
    (Return 50 9 poolFull).1 = false ∧ poolFull.returned = 0 ∧
    (Return 50 9 poolFull).2.returned = 1 := by
  refine ⟨rfl, rfl, rfl⟩

/-- C2 witness: the amended theorem applied to `poolFull`. -/
theorem C2_witness :
    ¬ poolFull.queue.length < poolFull.capacity ∧
    ((Return 50 9 poolFull).1 = false ∧
     (Return 50 9 poolFull).2.queue = poolFull.queue ∧
     (Return 50 9 poolFull).2.disposeRequests =
       poolFull.disposeRequests + 1 ∧
     (Return 50 9 poolFull).2.destroyed =
       poolFull.destroyed + (if poolFull.destroyer.isSome then 1 else 0)) :=
  ⟨by decide, (C2_return_semantics 50 9 poolFull).2.2 (by decide)⟩

/-- C3 (amended): every disposal performed by the pool goes through
`wrapDestroyer`, which records the disposal event but increments
`destroyed` exactly when a disposer callback is configured; in
particular, a stale-element disposal during Borrow with no tester and
no disposer configured leaves `destroyed` unchanged while the disposal
still happens. -/
theorem C3_destroyed_requires_disposer (x : T) (p : Pool T E) :
    ((wrapDestroyer x p).disposeRequests = p.disposeRequests + 1 ∧
     (wrapDestroyer x p).destroyed =
       p.destroyed + (if p.destroyer.isSome then 1 else 0)) ∧
    (∀ (now : Int) (e : Elem T) (rest : List (Elem T)),
      p.queue = e :: rest → p.tester = none → p.destroyer = none →
      p.idleTimeout ≤ now - e.lastValidated →
      (Borrow now p).2.destroyed = p.destroyed ∧
      (Borrow now p).2.disposeRequests = p.disposeRequests + 1) := by
  refine ⟨⟨(wrapDestroyer_preserves x p).2.2.2.2.2.2.2.2,
    wrapDestroyer_destroyed x p⟩, ?_⟩
  intro now e rest hq ht hd hstale
  have hbi := borrowInternal_stale_noTester now hq ht hstale
  have hwd : wrapDestroyer e.data { p with queue := rest } =
      { p with queue := rest,
               disposeRequests := p.disposeRequests + 1 } :=
    wrapDestroyer_none e.data (p := { p with queue := rest }) hd
  obtain ⟨-, -, -, hdm, hdp⟩ := Borrow_proj now p
  rw [hdm, hdp, hbi, hwd]
  obtain ⟨-, -, hma3, -, -⟩ := makeAttempts_preserves 2
    { p with queue := rest, disposeRequests := p.disposeRequests + 1 }
  obtain ⟨-, -, -, -, -, hma7⟩ := makeAttempts_preserves 2
    { p with queue := rest, disposeRequests := p.disposeRequests + 1 }
  exact ⟨hma3, hma7.2⟩

/-- C3 counterexample: borrowing the stale element of `poolNoDisposer`
(no tester, no disposer) disposes it — `disposeRequests` goes from 0 to
1 — yet `destroyed` stays 0, contradicting the claim that `destroyed`
is incremented regardless of whether a disposer is configured. -/
theorem C3_counterexample :
    (Borrow 100 poolNoDisposer).2.disposeRequests = 1 ∧
    (Borrow 100 poolNoDisposer).2.destroyed = 0 ∧
    poolNoDisposer.destroyer = none := by
  refine ⟨rfl, rfl, rfl⟩

/-- C3 witness: the amended theorem applied to `poolNoDisposer` and its
stale element. -/
theorem C3_witness :
    (poolNoDisposer.queue = staleElem :: [] ∧
     poolNoDisposer.tester = none ∧ poolNoDisposer.destroyer = none ∧
     poolNoDisposer.idleTimeout ≤ 100 - staleElem.lastValidated) ∧
    ((Borrow 100 poolNoDisposer).2.destroyed = poolNoDisposer.destroyed ∧
     (Borrow 100 poolNoDisposer).2.disposeRequests =
       poolNoDisposer.disposeRequests + 1) :=
  ⟨⟨rfl, rfl, rfl, by decide⟩,
    (C3_destroyed_requires_disposer 0 poolNoDisposer).2 100 staleElem []
      rfl rfl rfl (by decide)⟩

/-- C5: a Borrow that dequeues an element whose elapsed time since
`lastValidated` is strictly below the idle timeout returns that element
as-is: the final state differs from the initial one only in the queue
(head removed) and the `borrowed` counter; in particular the tester and
disposer are never invoked (`testRequests`, `disposeRequests`, `tested`
and `destroyed` are all unchanged). -/
theorem C5_fresh_borrow_as_is (p : Pool T E) (now : Int) (e : Elem T)
    (rest : List (Elem T)) (hq : p.queue = e :: rest)
    (hfresh : now - e.lastValidated < p.idleTimeout) :
    Borrow now p = (Except.ok e.data,
      { p with queue := rest, borrowed := p.borrowed + 1 }) := by
  have hbi := borrowInternal_fresh now hq hfresh
  have h1 : (borrowInternal now p).1 = Except.ok e.data := by rw [hbi]
  rw [Borrow_of_ok h1, hbi]

/-- C5 witness: the theorem applied to `poolFresh`, whose queued
element was validated at time 98 and is borrowed at time 100 with idle
timeout 5. -/
theorem C5_witness :
    (poolFresh.queue = ⟨7, 98⟩ :: [] ∧
     (100 : Int) - (98 : Int) < poolFresh.idleTimeout) ∧
    Borrow 100 poolFresh = (Except.ok 7,
      { poolFresh with queue := [], borrowed := 1 }) :=
  ⟨⟨rfl, by decide⟩,
    C5_fresh_borrow_as_is poolFresh 100 ⟨7, 98⟩ [] rfl (by decide)⟩

/-- C6: starting from any state whose queue respects the capacity
bound, the queue still respects it after any sequence of PreFill,
Borrow and Return operations (and the capacity itself never changes);
moreover a Return against a full queue reports false, leaves the queue
unchanged, and disposes the value instead of enqueuing it. -/
theorem C6_capacity_bound (ops : List (Op T)) (p : Pool T E)
    (h : p.queue.length ≤ p.capacity) :
    (runOps ops p).queue.length ≤ p.capacity ∧
    (runOps ops p).capacity = p.capacity ∧
    (∀ (now : Int) (v : T), p.capacity ≤ p.queue.length →
      (Return now v p).1 = false ∧
      (Return now v p).2.queue = p.queue ∧
      (Return now v p).2.disposeRequests = p.disposeRequests + 1) := by
  have hf := runOps_frame ops p
  have hb := runOps_bound ops p h
  refine ⟨by rw [← hf.1]; exact hb, hf.1, ?_⟩
  intro now v hfull
  have hnl : ¬ p.queue.length < p.capacity := by omega
  rw [Return_full hnl]
  exact ⟨rfl, (wrapDestroyer_preserves v _).1,
    (wrapDestroyer_preserves v _).2.2.2.2.2.2.2.2⟩

/-- C6 witness: the theorem applied to the full pool `poolFull` and the
operation sequence `sampleOps`. -/
theorem C6_witness :
    poolFull.queue.length ≤ poolFull.capacity ∧
    ((runOps sampleOps poolFull).queue.length ≤ poolFull.capacity ∧
     (runOps sampleOps poolFull).capacity = poolFull.capacity ∧
     ((Return 1 9 poolFull).1 = false ∧
      (Return 1 9 poolFull).2.queue = poolFull.queue ∧
      (Return 1 9 poolFull).2.disposeRequests =
        poolFull.disposeRequests + 1)) := by
  have h := C6_capacity_bound sampleOps poolFull (by decide)
  exact ⟨by decide, h.1, h.2.1, h.2.2 1 9 (by decide)⟩

/-- C7: across any operation sequence every counter is non-decreasing;
`created` grows by exactly one per successful maker invocation and by
nothing on a failed one (while `makerCalls` counts every invocation);
and `borrowed` grows by exactly one per successful Borrow and by
nothing on a failed one, never per internal retry (`borrowInternal`
itself leaves `borrowed` untouched). -/
theorem C7_counter_monotonicity (ops : List (Op T)) (p : Pool T E) :
    countersLE p (runOps ops p) ∧
    (∀ q : Pool T E,
      (wrapMaker q).2.created =
        q.created + (if (q.maker q.makerCalls).isOk then 1 else 0) ∧
      (wrapMaker q).2.makerCalls = q.makerCalls + 1) ∧
    (∀ (now : Int) (q : Pool T E),
      (borrowInternal now q).2.borrowed = q.borrowed ∧
      (Borrow now q).2.borrowed =
        q.borrowed + (if (Borrow now q).1.isOk then 1 else 0)) :=
  ⟨runOps_counters ops p,
   fun q => ⟨wrapMaker_created q, wrapMaker_makerCalls q⟩,
   fun now q => ⟨borrowInternal_borrowed now q, Borrow_borrowed now q⟩⟩

/-- C4: on a Borrow replacement path with no tester configured, if the
maker fails three consecutive times, Borrow surfaces the error of the
third attempt and invokes the maker exactly three times — no fourth
attempt. -/
theorem C4_third_error_no_fourth_attempt (p : Pool T E) (now : Int)
    (e : Elem T) (rest : List (Elem T)) (e0 e1 e2 : E)
    (hq : p.queue = e :: rest) (ht : p.tester = none)
    (hstale : p.idleTimeout ≤ now - e.lastValidated)
    (h0 : p.maker p.makerCalls = Except.error e0)
    (h1 : p.maker (p.makerCalls + 1) = Except.error e1)
    (h2 : p.maker (p.makerCalls + 2) = Except.error e2) :
    (Borrow now p).1 = Except.error e2 ∧
    (Borrow now p).2.makerCalls = p.makerCalls + 3 := by
  have hbi := borrowInternal_stale_noTester now hq ht hstale
  have hm : (wrapDestroyer e.data { p with queue := rest }).maker =
      p.maker := wrapDestroyer_maker e.data _
  have hc : (wrapDestroyer e.data { p with queue := rest }).makerCalls =
      p.makerCalls := wrapDestroyer_makerCalls e.data _
  have h0q : (wrapDestroyer e.data { p with queue := rest }).maker
      (wrapDestroyer e.data { p with queue := rest }).makerCalls =
      Except.error e0 := by rw [hm, hc]; exact h0
  have h1q : (wrapDestroyer e.data { p with queue := rest }).maker
      ((wrapDestroyer e.data { p with queue := rest }).makerCalls + 1) =
      Except.error e1 := by rw [hm, hc]; exact h1
  have h2q : (wrapDestroyer e.data { p with queue := rest }).maker
      ((wrapDestroyer e.data { p with queue := rest }).makerCalls + 2) =
      Except.error e2 := by rw [hm, hc]; exact h2
  obtain ⟨hfst, hmc, -, -⟩ := makeAttempts2_allErr h0q h1q h2q
  obtain ⟨hbf, hbmc, -, -, -⟩ := Borrow_proj now p
  constructor
  · rw [hbf, hbi, hfst]
  · rw [hbmc, hbi, hmc, hc]

/-- C4 witness: `poolNoTester` (stale element, no tester, maker failing
with `error i` on the i-th invocation) borrowed at time 100. -/
theorem C4_witness :
    (poolNoTester.queue = staleElem :: [] ∧ poolNoTester.tester = none ∧
     poolNoTester.idleTimeout ≤ 100 - staleElem.lastValidated ∧
     poolNoTester.maker 0 = Except.error 0 ∧
     poolNoTester.maker 1 = Except.error 1 ∧
     poolNoTester.maker 2 = Except.error 2) ∧
    ((Borrow 100 poolNoTester).1 = Except.error 2 ∧
     (Borrow 100 poolNoTester).2.makerCalls = 3) :=
  ⟨⟨rfl, rfl, by decide, rfl, rfl, rfl⟩,
    C4_third_error_no_fourth_attempt poolNoTester 100 staleElem [] 0 1 2
      rfl rfl (by decide) rfl rfl rfl⟩

/-- C1 (amended): the 3-attempt / 1-second-pause creation retry policy
applies only to the replacement path where no tester is configured:
there, the first successful attempt is returned immediately (pausing
once per preceding failure, none after the last attempt) and after
three failures the third error is surfaced.  When a configured tester
rejects the stale element, the maker is invoked exactly once, with no
pause, and that single attempt's value or error is returned directly. -/
theorem C1_retry_only_without_tester (p : Pool T E) (now : Int)
    (e : Elem T) (rest : List (Elem T)) (hq : p.queue = e :: rest)
    (hstale : p.idleTimeout ≤ now - e.lastValidated) :
    (p.tester = none →
      (∀ v, p.maker p.makerCalls = Except.ok v →
        (Borrow now p).1 = Except.ok v ∧
        (Borrow now p).2.makerCalls = p.makerCalls + 1 ∧
        (Borrow now p).2.sleeps = p.sleeps) ∧
      (∀ e0 v, p.maker p.makerCalls = Except.error e0 →
        p.maker (p.makerCalls + 1) = Except.ok v →
        (Borrow now p).1 = Except.ok v ∧
        (Borrow now p).2.makerCalls = p.makerCalls + 2 ∧
        (Borrow now p).2.sleeps = p.sleeps + 1) ∧
      (∀ e0 e1 v, p.maker p.makerCalls = Except.error e0 →
        p.maker (p.makerCalls + 1) = Except.error e1 →
        p.maker (p.makerCalls + 2) = Except.ok v →
        (Borrow now p).1 = Except.ok v ∧
        (Borrow now p).2.makerCalls = p.makerCalls + 3 ∧
        (Borrow now p).2.sleeps = p.sleeps + 2) ∧
      (∀ e0 e1 e2, p.maker p.makerCalls = Except.error e0 →
        p.maker (p.makerCalls + 1) = Except.error e1 →
        p.maker (p.makerCalls + 2) = Except.error e2 →
        (Borrow now p).1 = Except.error e2 ∧
        (Borrow now p).2.makerCalls = p.makerCalls + 3 ∧
        (Borrow now p).2.sleeps = p.sleeps + 2)) ∧
    (∀ t, p.tester = some t → t e.data = false →
      (Borrow now p).2.makerCalls = p.makerCalls + 1 ∧
      (Borrow now p).2.sleeps = p.sleeps ∧
      (∀ v, p.maker p.makerCalls = Except.ok v →
        (Borrow now p).1 = Except.ok v) ∧
      (∀ er, p.maker p.makerCalls = Except.error er →
        (Borrow now p).1 = Except.error er)) := by
  obtain ⟨hbf, hbmc, hbsl, -, -⟩ := Borrow_proj now p
  constructor
  · intro ht
    have hbi := borrowInternal_stale_noTester now hq ht hstale
    have hm : (wrapDestroyer e.data { p with queue := rest }).maker =
        p.maker := wrapDestroyer_maker e.data _
    have hc : (wrapDestroyer e.data { p with queue := rest }).makerCalls =
        p.makerCalls := wrapDestroyer_makerCalls e.data _
    have hs : (wrapDestroyer e.data { p with queue := rest }).sleeps =
        p.sleeps := (wrapDestroyer_preserves e.data _).2.2.2.2.2.2.1
    refine ⟨?_, ?_, ?_, ?_⟩
    · intro v h0
      obtain ⟨f, m, s, -⟩ := makeAttempts2_ok0
        (p := wrapDestroyer e.data { p with queue := rest })
        (by rw [hm, hc]; exact h0)
      exact ⟨by rw [hbf, hbi, f], by rw [hbmc, hbi, m, hc],
        by rw [hbsl, hbi, s, hs]⟩
    · intro e0 v h0 h1
      obtain ⟨f, m, s, -⟩ := makeAttempts2_ok1
        (p := wrapDestroyer e.data { p with queue := rest })
        (by rw [hm, hc]; exact h0) (by rw [hm, hc]; exact h1)
      exact ⟨by rw [hbf, hbi, f], by rw [hbmc, hbi, m, hc],
        by rw [hbsl, hbi, s, hs]⟩
    · intro e0 e1 v h0 h1 h2
      obtain ⟨f, m, s, -⟩ := makeAttempts2_ok2
        (p := wrapDestroyer e.data { p with queue := rest })
        (by rw [hm, hc]; exact h0) (by rw [hm, hc]; exact h1)
        (by rw [hm, hc]; exact h2)
      exact ⟨by rw [hbf, hbi, f], by rw [hbmc, hbi, m, hc],
        by rw [hbsl, hbi, s, hs]⟩
    · intro e0 e1 e2 h0 h1 h2
      obtain ⟨f, m, s, -⟩ := makeAttempts2_allErr
        (p := wrapDestroyer e.data { p with queue := rest })
        (by rw [hm, hc]; exact h0) (by rw [hm, hc]; exact h1)
        (by rw [hm, hc]; exact h2)
      exact ⟨by rw [hbf, hbi, f], by rw [hbmc, hbi, m, hc],
        by rw [hbsl, hbi, s, hs]⟩
  · intro t ht hfail
    have hbi := borrowInternal_stale_tester_fail now hq ht hstale hfail
    have hm : (wrapDestroyer e.data
        { p with queue := rest, testRequests := p.testRequests + 1,
                 tested := p.tested + 1 }).maker = p.maker :=
      wrapDestroyer_maker e.data _
    have hc : (wrapDestroyer e.data
        { p with queue := rest, testRequests := p.testRequests + 1,
                 tested := p.tested + 1 }).makerCalls = p.makerCalls :=
      wrapDestroyer_makerCalls e.data _
    have hs : (wrapDestroyer e.data
        { p with queue := rest, testRequests := p.testRequests + 1,
                 tested := p.tested + 1 }).sleeps = p.sleeps :=
      (wrapDestroyer_preserves e.data _).2.2.2.2.2.2.1
    refine ⟨?_, ?_, ?_, ?_⟩
    · rw [hbmc, hbi, wrapMaker_makerCalls, hc]
    · rw [hbsl, hbi, (wrapMaker_preserves _).2.2.2.2.2.1, hs]
    · intro v h0
      rw [hbf, hbi, wrapMaker_fst, hm, hc]
      exact h0
    · intro er h0
      rw [hbf, hbi, wrapMaker_fst, hm, hc]
      exact h0

/-- C1 counterexample: `poolTesterFail` has a stale element, a tester
that rejects it, and a maker failing with `error i` on the i-th
invocation.  The claim asserts that with all attempts failing the pool
attempts creation 3 times and surfaces the last (third) error, which
would be `error 2`; the code makes exactly one attempt and surfaces
`error 0`. -/
theorem C1_counterexample :
    poolTesterFail.tester = some (fun _ => false) ∧
    poolTesterFail.makerCalls = 0 ∧
    (Borrow 100 poolTesterFail).2.makerCalls = 1 ∧
    (Borrow 100 poolTesterFail).1 = Except.error 0 ∧
    poolTesterFail.maker 2 = Except.error 2 := by
  refine ⟨rfl, rfl, rfl, rfl, rfl⟩

/-- C1 witness: the amended theorem applied to `poolSecondTry` (no
tester, maker failing on its first invocation and succeeding on the
second): two attempts, one pause, value of the second attempt. -/
theorem C1_witness :
    (poolSecondTry.queue = staleElem :: [] ∧
     poolSecondTry.idleTimeout ≤ 100 - staleElem.lastValidated ∧
     poolSecondTry.tester = none ∧
     poolSecondTry.maker 0 = Except.error 0 ∧
     poolSecondTry.maker 1 = Except.ok 42) ∧
    ((Borrow 100 poolSecondTry).1 = Except.ok 42 ∧
     (Borrow 100 poolSecondTry).2.makerCalls = 2 ∧
     (Borrow 100 poolSecondTry).2.sleeps = 1) :=
  ⟨⟨rfl, by decide, rfl, rfl, rfl⟩,
    ((C1_retry_only_without_tester poolSecondTry 100 staleElem [] rfl
      (by decide)).1 rfl).2.1 0 42 rfl rfl⟩

/-- C8: constructing a pool with a nil maker aborts (modelled as
`none`, mirroring the Go `panic`); with a maker present the constructed
pool has an idle timeout of exactly 30 seconds and neither tester nor
disposer configured. -/
theorem C8_construction_defaults (size : Nat) (now : Int) :
    NewFixedPool (T := T) (E := E) size none now = none ∧
    ∀ mk : Nat → Except E T, ∃ q : Pool T E,
      NewFixedPool size (some mk) now = some q ∧
      q.idleTimeout = 30 * second ∧ q.tester = none ∧
      q.destroyer = none := by
  refine ⟨rfl, fun mk => ⟨(PreFill now (initPool size mk)).2, rfl,
    ?_, ?_, ?_⟩⟩
  · exact (preFillLoop_frame now size 0 (initPool size mk)).2.1
  · exact (preFillLoop_frame now size 0 (initPool size mk)).2.2.2.1
  · exact (preFillLoop_frame now size 0 (initPool size mk)).2.2.2.2

/-- C9: a pool constructed with capacity 0 keeps an empty queue under
every operation sequence, and every Borrow on it goes straight to the
maker, returning that invocation's value or error directly. -/
theorem C9_capacity_zero_always_creates (mk : Nat → Except E T)
    (now0 : Int) :
    ∃ q : Pool T E, NewFixedPool 0 (some mk) now0 = some q ∧
      ∀ (ops : List (Op T)) (now : Int),
        (runOps ops q).queue = [] ∧
        (Borrow now (runOps ops q)).1 =
          (runOps ops q).maker (runOps ops q).makerCalls := by
  refine ⟨initPool 0 mk, rfl, fun ops now => ?_⟩
  have hcap : (runOps ops (initPool (T := T) (E := E) 0 mk)).capacity = 0 :=
    (runOps_frame ops _).1
  have hb := runOps_bound ops (initPool (T := T) (E := E) 0 mk)
    (Nat.le_refl 0)
  rw [hcap] at hb
  have hnil : (runOps ops (initPool (T := T) (E := E) 0 mk)).queue = [] :=
    List.length_eq_zero.mp (Nat.le_zero.mp hb)
  refine ⟨hnil, ?_⟩
  rw [(Borrow_proj now _).1, borrowInternal_empty now hnil, wrapMaker_fst]

/-- C10: NewFixedPool pre-fills before returning: with any capacity n
and a maker that always succeeds, the freshly constructed pool already
holds n queued elements and has `created` equal to n. -/
theorem C10_construction_prefills (n : Nat) (mk : Nat → Except E T)
    (now : Int) (hok : ∀ i, (mk i).isOk = true) :
    ∃ q : Pool T E, NewFixedPool n (some mk) now = some q ∧
      q.queue.length = n ∧ q.created = n := by
  refine ⟨(PreFill now (initPool n mk)).2, rfl, ?_, ?_⟩
  · obtain ⟨h1, -, -⟩ := preFillLoop_fill now n 0
      (initPool (T := T) (E := E) n mk) hok (by simp [initPool])
    show (preFillLoop now n 0 (initPool (T := T) (E := E) n mk)).2.queue.length = n
    rw [h1]
    simp [initPool]
  · obtain ⟨-, h2, -⟩ := preFillLoop_fill now n 0
      (initPool (T := T) (E := E) n mk) hok (by simp [initPool])
    show (preFillLoop now n 0 (initPool (T := T) (E := E) n mk)).2.created = n
    rw [h2]
    simp [initPool]

/-- C10 witness: capacity 2 with the always-successful maker
`fun i => ok i`. -/
theorem C10_witness :
    (∀ i : Nat, (Except.ok (ε := Nat) i).isOk = true) ∧
    ∃ q : Pool Nat Nat,
      NewFixedPool 2 (some (fun i => Except.ok i)) 10 = some q ∧
      q.queue.length = 2 ∧ q.created = 2 :=
  ⟨fun _ => rfl,
    C10_construction_prefills 2 (fun i => Except.ok i) 10 (fun _ => rfl)⟩

end PoolGo
